import Mathlib

/-!
Verification development for the record validator (`test-records.js`).

The program validates a directory of JSON record files against a schema plus
heuristic rules (address formatting, country presence, template availability,
whitespace trimming), optionally auto-repairing a subset of violations and
rewriting files in place.

The shallow embedding below translates the source faithfully:

* JavaScript values parsed from JSON are modelled by the inductive type `Json`;
  a parsed record object is an ordered association list `JsonObj`.
* Fallible JavaScript evaluation (property access on `undefined`, calling
  `.some`/`.includes` on non-functions, dereferencing a `null` regex result)
  is modelled with `Except String`: `.error` means an uncaught `TypeError`
  aborts the run at that point.
* External collaborators (the compiled schema, `JSON.parse`, the template
  catalog built from the templates tree, the `countries-list` table and the
  `all-the-cities` gazetteer) are parameters of the embedded functions.
* String primitives used by the source (`trim`, `split('\n')`, `join`,
  `endsWith`) are given explicit executable models (`jsTrim`, `splitLines`,
  `jsJoin`, `jsEndsWith`) so concrete runs reduce by `rfl`/`decide`.
-/

/-! ## String primitives modelling the JavaScript ones -/

/-- Characters removed by JavaScript `String.prototype.trim`
(ECMAScript WhiteSpace and LineTerminator code points). -/
def jsTrimChar (c : Char) : Bool :=
  c = ' ' || c = '\t' || c = '\n' || c = '\u000b' || c = '\u000c' || c = '\r' ||
  c = '\u00a0' || c = '\u1680' ||
  ('\u2000' ≤ c && c ≤ '\u200a') ||
  c = '\u2028' || c = '\u2029' || c = '\u202f' || c = '\u205f' ||
  c = '\u3000' || c = '\ufeff'

/-- JavaScript `s.trim()`. -/
def jsTrim (s : String) : String :=
  String.mk (((s.data.dropWhile jsTrimChar).reverse.dropWhile jsTrimChar).reverse)

def splitLinesAux : List Char → List Char → List String
  | [], acc => [String.mk acc.reverse]
  | c :: rest, acc =>
    if c = '\n' then String.mk acc.reverse :: splitLinesAux rest []
    else splitLinesAux rest (c :: acc)

/-- JavaScript `s.split('\n')`: always returns at least one element;
`"".split('\n')` is `[""]`, and consecutive separators yield empty strings. -/
def splitLines (s : String) : List String := splitLinesAux s.data []

/-- JavaScript `Array.prototype.join(sep)` on an array of strings. -/
def jsJoin (sep : String) : List String → String
  | [] => ""
  | [x] => x
  | x :: rest => x ++ sep ++ jsJoin sep rest

/-- JavaScript `s.endsWith(suffix)`. -/
def jsEndsWith (s suffix : String) : Bool :=
  suffix.data.isSuffixOf s.data

/-- The element `lines[0]` of a split result (never empty, so the default is unused). -/
def headStr : List String → String
  | [] => ""
  | x :: _ => x

/-- The element `lines[lines.length - 1]` of a split result (never empty). -/
def lastStr : List String → String
  | [] => ""
  | [x] => x
  | _ :: x :: rest => lastStr (x :: rest)

/-! ## The JSON value model -/

/-- A JavaScript value obtained from `JSON.parse`. -/
inductive Json where
  | null : Json
  | bool (b : Bool) : Json
  | num (n : Int) : Json
  | str (s : String) : Json
  | arr (elems : List Json) : Json
  | obj (fields : List (String × Json)) : Json

/-- A parsed record object: ordered key/value pairs
(`JSON.parse` keeps source order and deduplicates keys). -/
abbrev JsonObj := List (String × Json)

/-- Lookup `json[key]`: `none` models JavaScript `undefined`. -/
def getField (json : JsonObj) (key : String) : Option Json :=
  (json.find? (fun kv => kv.1 = key)).map (fun kv => kv.2)

/-- Assignment `json[key] = v`: replaces the value in place (JavaScript keeps the key's
position when assigning to an existing key, and appends a new key). -/
def setField (json : JsonObj) (key : String) (v : Json) : JsonObj :=
  match json with
  | [] => [(key, v)]
  | (k, w) :: rest => if k = key then (k, v) :: rest else (k, w) :: setField rest key v

/-- Property access on an arbitrary value (`el.type`): objects have named
properties; on `null` the access throws a TypeError; other primitives are
boxed and arrays have no named properties, so the result is `undefined`. -/
def getFieldJ : Json → String → Except String (Option Json)
  | .obj fields, key => .ok (getField fields key)
  | .null, key => .error ("TypeError: Cannot read properties of null (reading \x27" ++ key ++ "\x27)")
  | _, _ => .ok none

/-- Constructor test for the JSON `null` value. -/
def Json.isNull : Json → Bool
  | .null => true
  | _ => false

/-- JavaScript truthiness of a defined value. -/
def truthy : Json → Bool
  | .null => false
  | .bool b => b
  | .num n => n ≠ 0
  | .str s => s ≠ ""
  | .arr _ => true
  | .obj _ => true

/-- JavaScript truthiness where `none` is `undefined`. -/
def truthyOpt : Option Json → Bool
  | none => false
  | some v => truthy v

/-- Strict equality `v === s` for a string literal `s`: true exactly when the value is that
string (strict equality never coerces). -/
def isStrVal (v : Option Json) (s : String) : Bool :=
  match v with
  | some (.str t) => t = s
  | _ => false

def Json.isArr : Json → Bool
  | .arr _ => true
  | _ => false

/-- Whether an element satisfies the callback `el.type === 'name'` without
throwing: true only for objects whose `type` field is the string `"name"`
(for non-null primitives and arrays the access yields `undefined`). -/
def elTypeIsName : Json → Bool
  | .obj fields => isStrVal (getField fields "type") "name"
  | _ => false

/-- String coercion of an array ELEMENT during `Array.prototype.join`
(`null` becomes the empty string there). Deeper nested arrays do not occur
in record fields and are not modelled. -/
def jsArrElemToStr : Json → String
  | .str s => s
  | .num n => toString n
  | .bool true => "true"
  | .bool false => "false"
  | .null => ""
  | .arr _ => ""
  | .obj _ => "[object Object]"

/-- JavaScript `String(v)` coercion of a defined value (used for property
keys and template-literal interpolation). -/
def jsToStr : Json → String
  | .str s => s
  | .num n => toString n
  | .bool true => "true"
  | .bool false => "false"
  | .null => "null"
  | .obj _ => "[object Object]"
  | .arr elems => jsJoin "," (elems.map jsArrElemToStr)

/-- String coercion where `none` is `undefined` (so `"" + undefined` is
`"undefined"`). -/
def jsToStrOpt : Option Json → String
  | none => "undefined"
  | some v => jsToStr v

/-! ## Reference data shapes -/

/-- The list `country_name_variations` (source line 19). -/
def country_name_variations : List String :=
  ["United States of America", "The Netherlands", "Republic of Singapore"]

/-- The list `variation_countrycodes` (source line 20). -/
def variation_countrycodes : List String := ["US", "NL", "SG"]

/-- One entry of the `countries-list` table: country code with official and
native names. -/
structure CountryEntry where
  code : String
  name : String
  native : String
deriving DecidableEq, Repr

/-- One entry of the `all-the-cities` gazetteer. -/
structure CityEntry where
  name : String
  country : String
deriving DecidableEq, Repr

/-- The function `isLastLineCountry(last_line, country_name_variations)` (source lines
90–97), parameterised by the `countries-list` table.  Note the operator
precedence in the source:
`(!variation_countrycodes.includes(countrycode) && v.name == last_line) || v.native == last_line`
— the exclusion applies only to the official name; a native name matches even
for excluded country codes. -/
def isLastLineCountry (countriesTable : List CountryEntry) (last_line : String)
    (variations : List String) : Bool :=
  countriesTable.any (fun v =>
    (!variation_countrycodes.contains v.code && v.name == last_line) || v.native == last_line)
  || variations.contains last_line

/-- Modelled from the spec's words for the Country Matcher (claim C6): the
text must equal the official OR native name of a country whose code is NOT in
the exclusion set, or one of the variations.  (The source instead applies the
exclusion only to the official name.) -/
def isLastLineCountrySpec (countriesTable : List CountryEntry) (last_line : String)
    (variations : List String) : Bool :=
  countriesTable.any (fun v =>
    !variation_countrycodes.contains v.code && (v.name == last_line || v.native == last_line))
  || variations.contains last_line

/-! ## The template catalog -/

/-- The catalog built once per run from the templates tree: language code to
the list of template names. -/
abbrev Templates := List (String × List String)

/-- Lookup `templates[lang]`: `none` models `undefined` (no entry for the language). -/
def templatesLookup (t : Templates) (lang : String) : Option (List String) :=
  (t.find? (fun kv => kv.1 = lang)).map (fun kv => kv.2)

/-! ## Findings -/

/-- A finding before its `type` tag is attached (the source pushes objects
`{msg, ref?}` into `errors`/`autofixes` and adds `type` at the end). -/
structure Ev where
  msg : String
  ref : Option String := none
deriving DecidableEq, Repr

/-- A reported event: `{type, msg, ref?, error?}` (the `TestEvent` typedef of
the source; `err` models the `error` payload, stringified). -/
structure TestEvent where
  type : String
  msg : String
  ref : Option String := none
  err : Option String := none
deriving DecidableEq, Repr

/-! ### The messages of `additional_checks`, verbatim from the source -/

def requiredElementsMsg : String :=
  "Record has required elements but no \x27name\x27 element."

def requiredElementsRef : String :=
  "https://github.com/datenanfragen/data#required-elements"

def requiredElementsEv : Ev := ⟨requiredElementsMsg, some requiredElementsRef⟩

/-- Message of the template error in the `request-language` branch
(interpolations written right-associated so prefix lemmas apply). -/
def templateMsgWithLang (prop : String) (v : Option Json) (lang : String) : String :=
  "Record specifies \x27" ++ (prop ++ ("\x27 of \x27" ++ (jsToStrOpt v ++
    ("\x27 but that isn\x27t available for \x27request-language\x27 of \x27" ++ (lang ++ "\x27.")))))

/-- Message of the template error in the default-English branch. -/
def templateMsgEnglish (prop : String) (v : Option Json) : String :=
  "Record specifies \x27" ++ (prop ++ ("\x27 of \x27" ++ (jsToStrOpt v ++
    "\x27 but that isn\x27t available in English.")))

def templateRef : String := "https://github.com/datenanfragen/data/issues/1120"

def qualityTestedEv : Ev :=
  ⟨"Record has `quality` of `tested` but doesn\x27t specify `required-elements`.",
   some "https://github.com/datenanfragen/data/issues/811"⟩

def whitespaceMsg (key : String) : String :=
  "Seems like `" ++ (key ++ "` isn\x27t trimmed, i.e. it contains leading or trailing whitespace.")

def trimmedFixMsg (key : String) : String := "trimmed " ++ key

def addressNewlinesEv : Ev := ⟨"`address` is not formatted with newlines (\\n).", none⟩

def addressTrimEv : Ev :=
  ⟨"`address` isn\x27t trimmed (linewise), i.e. it contains unnecessary whitespace.", none⟩

def duplicateNameMsg : String := "Record includes `name` in the `address`."

def duplicateNameEv : Ev := ⟨duplicateNameMsg, none⟩

def duplicateNameFixMsg : String := "Removed duplicate name in first line of address"

def duplicateNameFixEv : Ev := ⟨duplicateNameFixMsg, none⟩

def countryMsg (last_line : String) : String :=
  "Last line of `address` (" ++ (last_line ++
    (") should be a country. If you feel like this error is a mistake, please let us know! We get our list of countries from https://www.npmjs.com/package/countries-list. We\x27ve decided on specific variations for some countries: (" ++
      (jsJoin ", " country_name_variations ++ ").")))

def guessedCountryMsg (code : String) : String := "guessed missing country: " ++ code

/-! ## The city-extraction regular expression

`/[\d ]* ([\S ]*)/.exec(last_line)` (source line 197).  The pattern needs a
literal space: at the leftmost feasible start, the greedy `[\d ]*` run must be
followed by a space, and the capture group takes the `[\S ]*` run after the
last space of that prefix run.  `exec` returns `null` exactly when the input
contains no space character. -/

def regexDigitSpace (c : Char) : Bool := c.isDigit || c = ' '

/-- The character class `[\S ]`: any non-whitespace character, or a space. -/
def regexSOrSpace (c : Char) : Bool := !jsTrimChar c || c = ' '

/-- The part of `l` after its last `' '` (the whole list when it has none). -/
def afterLastSpace (l : List Char) : List Char :=
  (l.reverse.takeWhile (fun c => c ≠ ' ')).reverse

def execCityAux : List Char → Option (List Char)
  | [] => none
  | c :: rest =>
    let run := (c :: rest).takeWhile regexDigitSpace
    if run.contains ' ' then
      some ((afterLastSpace run ++ (c :: rest).drop run.length).takeWhile regexSOrSpace)
    else execCityAux rest

/-- The captured "city" group, or `none` when the regex does not match
(in which case the source dereferences `null` and throws). -/
def execCity (last_line : String) : Option String :=
  (execCityAux last_line.data).map (fun cs => String.mk cs)

/-! ## The rule stages of `additional_checks` (source lines 104–228)

The source pushes findings onto `errors` / `autofixes` while mutating the
deep copy `af_json`.  Each stage below returns the findings it pushes, in
push order; `checksCore` concatenates them in evaluation order and threads
the accumulating fixed copy.  A `.error` result is an uncaught `TypeError`. -/

/-- The `.some((el) => el.type === 'name')` traversal of source line 112:
elements are visited in order and the scan short-circuits at the first
element of type `name`; the property access `el.type` throws on a `null`
element reached by the scan. -/
def someElTypeName : List Json → Except String Bool
  | [] => .ok false
  | el :: rest =>
    match getFieldJ el "type" with
    | .error e => .error e
    | .ok t => if isStrVal t "name" then .ok true else someElTypeName rest

/-- Source lines 110–118: the required-elements rule.  `if (json['required-elements'])`
is a truthiness test (an empty array passes it), `.some` on a truthy
non-array throws, and the `.some` callback itself throws on a `null`
element reached before any element of type `name`. -/
def checkRequiredElements (json : JsonObj) : Except String (List Ev) :=
  match getField json "required-elements" with
  | none => .ok []
  | some v =>
    if truthy v then
      match v with
      | .arr els =>
        match someElTypeName els with
        | .error e => .error e
        | .ok has_name_field =>
          .ok (if has_name_field then [] else [requiredElementsEv])
      | _ => .error "TypeError: json[\x27required-elements\x27].some is not a function"
    else .ok []

def templateProps : List String :=
  ["custom-access-template", "custom-erasure-template",
   "custom-rectification-template", "custom-objection-template"]

/-- Source lines 126–141: one iteration of the template-availability loop.
When the looked-up language has no entry, `.includes` is called on
`undefined` and throws. -/
def checkTemplateProp (t : Templates) (json : JsonObj) (prop : String) :
    Except String (List Ev) :=
  if truthyOpt (getField json prop) then
    if truthyOpt (getField json "request-language") then
      let lang := jsToStrOpt (getField json "request-language")
      match templatesLookup t lang with
      | none => .error "TypeError: Cannot read properties of undefined (reading \x27includes\x27)"
      | some names =>
        .ok (if names.any (fun n => isStrVal (getField json prop) n) then []
             else [⟨templateMsgWithLang prop (getField json prop) lang, none⟩])
    else
      match templatesLookup t "en" with
      | none => .error "TypeError: Cannot read properties of undefined (reading \x27includes\x27)"
      | some names =>
        .ok (if names.any (fun n => isStrVal (getField json prop) n) then []
             else [⟨templateMsgEnglish prop (getField json prop), some templateRef⟩])
  else .ok []

def checkTemplatesGo (t : Templates) (json : JsonObj) :
    List String → Except String (List Ev)
  | [] => .ok []
  | p :: ps =>
    match checkTemplateProp t json p with
    | .error e => .error e
    | .ok evs =>
      match checkTemplatesGo t json ps with
      | .error e => .error e
      | .ok rest => .ok (evs ++ rest)

/-- Source lines 120–142: the template-availability rule over the four
`custom-*-template` fields. -/
def checkTemplates (t : Templates) (json : JsonObj) : Except String (List Ev) :=
  checkTemplatesGo t json templateProps

/-- Source lines 144–151: `quality === 'tested'` requires `required-elements`. -/
def checkQuality (json : JsonObj) : List Ev :=
  if isStrVal (getField json "quality") "tested" then
    if !truthyOpt (getField json "required-elements") then [qualityTestedEv] else []
  else []

/-- Source lines 152–163: the global whitespace rule, iterating over
`Object.keys(json)` in order; string values that differ from their trimmed
form yield an error and, under autofix, a field rewrite plus an autofix
event.  Returns (errors, autofixes, updated fixed copy). -/
def checkWhitespace (autofix : Bool) :
    List (String × Json) → JsonObj → List Ev × List Ev × JsonObj
  | [], af => ([], [], af)
  | (key, .str s) :: rest, af =>
    if s ≠ jsTrim s then
      let af' := if autofix then setField af key (.str (jsTrim s)) else af
      let w := checkWhitespace autofix rest af'
      (⟨whitespaceMsg key, none⟩ :: w.1,
       (if autofix then [(⟨trimmedFixMsg key, none⟩ : Ev)] else []) ++ w.2.1, w.2.2)
    else checkWhitespace autofix rest af
  | _ :: rest, af => checkWhitespace autofix rest af

/-- The current string value of `af_json.address` when rule 8 appends the
guessed country (`af_json.address += ...`); by construction it is always a
string at that point. -/
def afAddressString (af : JsonObj) : String :=
  match getField af "address" with
  | some (.str s) => s
  | _ => ""

/-- Source lines 165–208: the address rules (line count, linewise trim,
duplicate name, trailing country), evaluated on the ORIGINAL record's
`address` while mutating the accumulated fixed copy.  `json['address'].split`
throws when `address` is absent or not a string; under autofix the
city-extraction regex result is dereferenced and throws when the last line
contains no space; `countries[guess.country].name` throws when the gazetteer
names a country code missing from the table. -/
def checkAddress (autofix : Bool) (countriesTable : List CountryEntry)
    (citiesTable : List CityEntry) (json : JsonObj) (af0 : JsonObj) :
    Except String (List Ev × List Ev × JsonObj) :=
  match getField json "address" with
  | some (.str addr) =>
    let address_lines := splitLines addr
    let e5 := if address_lines.length < 2 then [addressNewlinesEv] else []
    let lineTrimBad := address_lines.any (fun line => line ≠ jsTrim line)
    let e6 := if lineTrimBad then [addressTrimEv] else []
    let f6 := if lineTrimBad && autofix then [(⟨"trimmed address", none⟩ : Ev)] else []
    let af1 := if lineTrimBad && autofix then
        setField af0 "address" (.str (jsJoin "\n" (address_lines.map jsTrim)))
      else af0
    let e7 := if address_lines.any (fun line => isStrVal (getField json "name") line) then
        [duplicateNameEv] else []
    let dupFixApplies := autofix && isStrVal (getField json "name") (jsTrim (headStr address_lines))
    let f7 := if dupFixApplies then [duplicateNameFixEv] else []
    let af2 := if dupFixApplies then
        setField af1 "address" (.str (jsJoin "\n" (address_lines.drop 1)))
      else af1
    let last_line := jsTrim (lastStr address_lines)
    if isLastLineCountry countriesTable last_line country_name_variations then
      .ok (e5 ++ e6 ++ e7, f6 ++ f7, af2)
    else
      let e8 := [(⟨countryMsg last_line, none⟩ : Ev)]
      if autofix then
        match execCity last_line with
        | none => .error "TypeError: Cannot read properties of null (reading \x271\x27)"
        | some city =>
          match (citiesTable.filter (fun x => x.name = city)).head? with
          | none => .ok (e5 ++ e6 ++ e7 ++ e8, f6 ++ f7, af2)
          | some guess =>
            let resolved : Except String String :=
              if variation_countrycodes.contains guess.country then
                .ok (country_name_variations.getD
                      (List.indexOf guess.country variation_countrycodes) "")
              else
                match countriesTable.find? (fun e => e.code = guess.country) with
                | some entry => .ok entry.name
                | none => .error "TypeError: Cannot read properties of undefined (reading \x27name\x27)"
            match resolved with
            | .error e => .error e
            | .ok countryName =>
              .ok (e5 ++ e6 ++ e7 ++ e8,
                   f6 ++ f7 ++ [⟨guessedCountryMsg guess.country, none⟩],
                   setField af2 "address" (.str (afAddressString af2 ++ ("\n" ++ countryName))))
      else .ok (e5 ++ e6 ++ e7 ++ e8, f6 ++ f7, af2)
  | some _ => .error "TypeError: json.address.split is not a function"
  | none => .error "TypeError: Cannot read properties of undefined (reading \x27split\x27)"

/-- The errors, autofixes and accumulated fixed copy produced by the rule
sequence of `additional_checks`, in source order. -/
def checksCore (autofix : Bool) (t : Templates) (countriesTable : List CountryEntry)
    (citiesTable : List CityEntry) (json : JsonObj) :
    Except String (List Ev × List Ev × JsonObj) :=
  match checkRequiredElements json with
  | .error e => .error e
  | .ok e1 =>
    match checkTemplates t json with
    | .error e => .error e
    | .ok e2 =>
      let e3 := checkQuality json
      let w := checkWhitespace autofix json json
      match checkAddress autofix countriesTable citiesTable json w.2.2 with
      | .error e => .error e
      | .ok r =>
        .ok (e1 ++ e2 ++ e3 ++ w.1 ++ r.1, w.2.1 ++ r.2.1, r.2.2)

/-- The guard `json !== af_json` (source line 209): strict inequality of two distinct
object references is always `true` — `af_json` is created fresh by
`JSON.parse(JSON.stringify(json))`, so the write guard never blocks a write. -/
def jsObjectRefNeq : Bool := true

/-- The observable outcome of `additional_checks` for one file. -/
structure CheckResult where
  /-- The `returnevents` list: autofix events first, then errors, each tagged. -/
  events : List TestEvent
  /-- The final `af_json`. -/
  af : JsonObj
  /-- Whether `fs.writeFileSync` replaced the file (with `af` serialized). -/
  write : Bool

/-- The function `additional_checks(json, f)` (source lines 104–228) plus the in-place
rewrite decision of line 209. -/
def additional_checks (autofix : Bool) (t : Templates)
    (countriesTable : List CountryEntry) (citiesTable : List CityEntry)
    (json : JsonObj) : Except String CheckResult :=
  match checksCore autofix t countriesTable citiesTable json with
  | .error e => .error e
  | .ok (errors, autofixes, af_json) =>
    .ok ⟨(autofixes.map fun a => ⟨"autofix", a.msg, a.ref, none⟩) ++
          (errors.map fun e => ⟨"error", e.msg, e.ref, none⟩),
         af_json,
         autofix && jsObjectRefNeq⟩

/-! ## The file walker (`validator`, source lines 54–88) and program wiring

External collaborators are parameters: `parse` is `JSON.parse` (returning the
parse error message on failure), `schema` is a compiled ajv schema returning
`none` on success and the stringified `schema.errors` detail on failure. -/

/-- One input file: its base name and raw content. -/
structure FileInput where
  name : String
  content : String

/-- Source lines 67–68: the trailing-newline check, before parsing. -/
def fileBaseEvents (content : String) : List TestEvent :=
  if jsEndsWith content "\x7d\n" then []
  else [⟨"error", "File doesn\x27t end with exactly one newline.", none, none⟩]

/-- Source line 74: the event recorded when `JSON.parse` throws. -/
def parseFailEvent (err : String) : TestEvent :=
  ⟨"error", "Parsing JSON failed.\n", none, some err⟩

/-- Source line 78: the event recorded when schema validation fails. -/
def schemaFailEvent (errs : String) : TestEvent :=
  ⟨"error", "Schema validation failed.\n", none, some errs⟩

/-- Source line 80: the slug/filename mismatch event. -/
def slugMismatchEvent (basename slug : String) : TestEvent :=
  ⟨"error",
   "Filename \"" ++ (basename ++ ("\" does not match slug \"" ++ (slug ++ "\"."))), none, none⟩

/-- The fields of a parsed value as seen by the property accesses of the
checks: only objects expose named properties (on non-null primitives and
arrays every named access yields `undefined`, which the embedding gets from
the empty list; the numeric index keys of strings are irrelevant to these
checks).  A top-level `null` never reaches the checks: the slug stage
throws on it first. -/
def jsFields : Json → JsonObj
  | .obj fields => fields
  | _ => []

/-- The slug stage (source lines 79–81): the property access `json.slug`
throws on a top-level `null` (killing the run before anything is printed);
otherwise the coerced slug plus `".json"` is compared with the file's base
name. -/
def slugStage (json : Json) (basename : String) : Except String (List TestEvent) :=
  match json with
  | .null => .error "TypeError: Cannot read properties of null (reading \x27slug\x27)"
  | _ =>
    .ok (if jsToStrOpt (getField (jsFields json) "slug") ++ ".json" ≠ basename then
          [slugMismatchEvent basename (jsToStrOpt (getField (jsFields json) "slug"))]
         else [])

/-- Source lines 59–86, one file at a time.  Returns the events map handed to
`print` (`.error` when an exception escaped `additional_checks`, in which
case nothing is printed and the run dies) and the list of files rewritten by
autofix, with the value written. -/
def validatorGo (schema : Json → Option String) (parse : String → Except String Json)
    (checks : Option (Json → Except String CheckResult)) :
    List FileInput → Except String (List (String × List TestEvent)) × List (String × JsonObj)
  | [] => (.ok [], [])
  | f :: rest =>
    let base := fileBaseEvents f.content
    match parse f.content with
    | .error err =>
      let rec' := validatorGo schema parse checks rest
      ((rec'.1).map (fun l => (f.name, base ++ [parseFailEvent err]) :: l), rec'.2)
    | .ok json =>
      let e1 := match schema json with
        | some errs => [schemaFailEvent errs]
        | none => []
      match slugStage json f.name with
      | .error e => (.error e, [])
      | .ok e2 =>
      match checks with
      | none =>
        let rec' := validatorGo schema parse checks rest
        ((rec'.1).map (fun l => (f.name, base ++ e1 ++ e2) :: l), rec'.2)
      | some chk =>
        match chk json with
        | .error e => (.error e, [])
        | .ok r =>
          let rec' := validatorGo schema parse checks rest
          ((rec'.1).map (fun l => (f.name, base ++ e1 ++ e2 ++ r.events) :: l),
           (if r.write then [(f.name, r.af)] else []) ++ rec'.2)

/-- Source lines 229–230: `validator('companies', cdb_schema, additional_checks)`
then `validator('supervisory-authorities', adb_schema)`.  If an exception
escapes the first run the process dies and the second directory is never
visited.  Returns the two event maps (or the escaped error) and all file
writes performed, in order. -/
def runProgram (autofix : Bool) (t : Templates) (countriesTable : List CountryEntry)
    (citiesTable : List CityEntry) (cdb_schema adb_schema : Json → Option String)
    (parse : String → Except String Json)
    (companies authorities : List FileInput) :
    Except String (List (String × List TestEvent) × List (String × List TestEvent)) ×
      List (String × JsonObj) :=
  let r1 := validatorGo cdb_schema parse
      (some fun j => additional_checks autofix t countriesTable citiesTable (jsFields j))
      companies
  match r1.1 with
  | .error e => (.error e, r1.2)
  | .ok evs1 =>
    let r2 := validatorGo adb_schema parse none authorities
    match r2.1 with
    | .error e => (.error e, r1.2 ++ r2.2)
    | .ok evs2 => (.ok (evs1, evs2), r1.2 ++ r2.2)

/-! ## Predicates used by the claims -/

/-- The effective language the template rule looks up: the record's
`request-language` coerced to a string when truthy, else `"en"`. -/
def effectiveLang (json : JsonObj) : String :=
  if truthyOpt (getField json "request-language") then
    jsToStrOpt (getField json "request-language")
  else "en"

/-- No-throw condition for the required-elements rule: the field is absent,
falsy, or an array with no `null` element (so the `.some` callback's
property access cannot throw). -/
def reFieldOk (json : JsonObj) : Bool :=
  match getField json "required-elements" with
  | none => true
  | some v =>
    !truthy v ||
    match v with
    | .arr els => els.all (fun el => !el.isNull)
    | _ => false

/-- No-throw condition for the template rule: every truthy
`custom-*-template` field finds a catalog entry for the effective language. -/
def templatesFieldOk (t : Templates) (json : JsonObj) : Bool :=
  templateProps.all fun p =>
    !truthyOpt (getField json p) || (templatesLookup t (effectiveLang json)).isSome

/-- No-throw condition for the address rules: `address` is a string, and in
auto-fix mode, when the last line is not recognised as a country, the
city-extraction regex matches (the line contains a space) and any gazetteer
hit carries a resolvable country code. -/
def addressRuleOk (autofix : Bool) (countriesTable : List CountryEntry)
    (citiesTable : List CityEntry) (json : JsonObj) : Bool :=
  match getField json "address" with
  | some (.str addr) =>
    !autofix ||
    (let last := jsTrim (lastStr (splitLines addr))
     isLastLineCountry countriesTable last country_name_variations ||
     match execCity last with
     | none => false
     | some city =>
       match (citiesTable.filter (fun x => x.name = city)).head? with
       | none => true
       | some guess =>
         variation_countrycodes.contains guess.country ||
         (countriesTable.find? (fun e => e.code = guess.country)).isSome)
  | _ => false

/-- Conjunction of the three no-throw conditions (amended claim C1). -/
def checksNoThrowOk (autofix : Bool) (t : Templates) (countriesTable : List CountryEntry)
    (citiesTable : List CityEntry) (json : JsonObj) : Bool :=
  reFieldOk json && templatesFieldOk t json &&
    addressRuleOk autofix countriesTable citiesTable json

/-- The finding the template rule produces for one field, per the AMENDED
claim C7: a field participates when truthy; the effective language is the
truthy `request-language` (string-coerced) or `"en"`; an error is emitted
iff the entry lacks the template name; the reference link is attached iff
`request-language` is not truthy. -/
def expectedTemplateFinding (t : Templates) (json : JsonObj) (prop : String) : Option Ev :=
  if truthyOpt (getField json prop) then
    if truthyOpt (getField json "request-language") then
      match templatesLookup t (jsToStrOpt (getField json "request-language")) with
      | some names =>
        if names.any (fun n => isStrVal (getField json prop) n) then none
        else some ⟨templateMsgWithLang prop (getField json prop)
                    (jsToStrOpt (getField json "request-language")), none⟩
      | none => none
    else
      match templatesLookup t "en" with
      | some names =>
        if names.any (fun n => isStrVal (getField json prop) n) then none
        else some ⟨templateMsgEnglish prop (getField json prop), some templateRef⟩
      | none => none
  else none

/-- Modelled from the ORIGINAL claim C7's words (presence semantics): a field
participates when PRESENT; the effective language is the PRESENT
`request-language` or `"en"`; an error iff the entry lacks the name; the
reference link iff `request-language` is ABSENT. -/
def claimTemplateFinding (t : Templates) (json : JsonObj) (prop : String) : Option Ev :=
  match getField json prop with
  | none => none
  | some v =>
    let lang := match getField json "request-language" with
      | some l => jsToStr l
      | none => "en"
    match templatesLookup t lang with
    | none => none
    | some names =>
      if names.any (fun n => isStrVal (some v) n) then none
      else some ⟨(match getField json "request-language" with
                  | some _ => templateMsgWithLang prop (some v) lang
                  | none => templateMsgEnglish prop (some v)),
                 (match getField json "request-language" with
                  | some _ => none
                  | none => some templateRef)⟩

/-! ## Concrete data used by the claim theorems -/

/-- The `countries-list` entry for Germany. -/
def deTable : List CountryEntry := [⟨"DE", "Germany", "Deutschland"⟩]

/-- A record that violates no rule. -/
def cleanRecord : JsonObj :=
  [("slug", Json.str "acme"), ("name", Json.str "Acme"),
   ("address", Json.str "Musterstr. 1\nGermany")]

/-- A record whose only problem is the duplicated name in the address. -/
def dupRecord : JsonObj :=
  [("slug", Json.str "acme"), ("name", Json.str "Acme"),
   ("address", Json.str "Acme\nMusterstr. 1\nGermany")]

/-- The record `dupRecord` after the duplicate-name autofix. -/
def dupRecordFixed : JsonObj :=
  [("slug", Json.str "acme"), ("name", Json.str "Acme"),
   ("address", Json.str "Musterstr. 1\nGermany")]

/-- The record of end-to-end scenario B of the spec. -/
def scenarioBRecord : JsonObj :=
  [("slug", Json.str "acme"), ("name", Json.str "Acme"),
   ("address", Json.str "Acme\nMusterstr. 1\nBerlin"),
   ("required-elements", Json.arr [Json.obj [("type", Json.str "email")]]),
   ("quality", Json.str "tested")]

/-- The gazetteer entry of scenario B, mapping Berlin to country code DE. -/
def berlinGazetteer : List CityEntry := [⟨"Berlin", "DE"⟩]

/-- The `countries-list` entry for the Netherlands (an excluded country code
whose native name differs from its official name). -/
def nlEntry : CountryEntry := ⟨"NL", "Netherlands", "Nederland"⟩

/-- The C10 witness record: the first address line `"Acme "` trims to the
name but no line equals the name exactly. -/
def dupSpaceRecord : JsonObj :=
  [("name", Json.str "Acme"),
   ("address", Json.str "Acme \nMusterstr. 1\nGermany"),
   ("slug", Json.str "a")]

/-- The full outcome of `additional_checks` on `dupSpaceRecord` in auto-fix
mode: the linewise-trim fix, then the duplicate-name removal, one trim
error, no duplicate-name error, and a file rewrite. -/
def dupSpaceResult : CheckResult :=
  ⟨[⟨"autofix", "trimmed address", none, none⟩,
    ⟨"autofix", duplicateNameFixMsg, none, none⟩,
    ⟨"error", "`address` isn\x27t trimmed (linewise), i.e. it contains unnecessary whitespace.",
     none, none⟩],
   [("name", Json.str "Acme"), ("address", Json.str "Musterstr. 1\nGermany"),
    ("slug", Json.str "a")],
   true⟩

/-! ## Claim theorems -/

/-- C2: for the scenario-B record in auto-fix mode with a gazetteer mapping
"Berlin" to "DE", the claim expects the address rewritten to
`"Musterstr. 1\nBerlin\nGermany"` with two autofix findings and a file
rewrite.  The code instead aborts: the last address line "Berlin" contains
no space, so the city-extraction regex `/[\d ]* ([\S ]*)/` does not match,
`exec` returns `null`, and indexing it throws an uncaught TypeError — no
findings are returned and no file is written. -/
theorem C2_scenarioB_crashes :
    additional_checks true [] deTable berlinGazetteer scenarioBRecord =
      .error "TypeError: Cannot read properties of null (reading \x271\x27)" := rfl

/-- C3: the claim says the file is rewritten iff the fixed copy differs from
the original by value.  On a record violating no rule, the fixed copy equals
the original record, yet `write` is still `true`: the source's guard
`json !== af_json` compares object references and `af_json` is a fresh deep
copy, so auto-fix mode always rewrites the file. -/
theorem C3_autofix_always_rewrites :
    additional_checks true [] deTable [] cleanRecord = .ok ⟨[], cleanRecord, true⟩ := rfl

/-- C4: the claim says a second auto-fix run performs no further file
rewrite.  The first run on `dupRecord` removes the duplicated name and
rewrites the file; running the checks again on the corrected record yields a
fixed copy equal to its input, yet `write` is again `true` (the reference
comparison `json !== af_json` never blocks), so the file is rewritten a
second time. -/
theorem C4_second_run_still_rewrites :
    additional_checks true [] deTable [] dupRecord =
      .ok ⟨[⟨"autofix", duplicateNameFixMsg, none, none⟩,
            ⟨"error", duplicateNameMsg, none, none⟩], dupRecordFixed, true⟩ ∧
    additional_checks true [] deTable [] dupRecordFixed =
      .ok ⟨[], dupRecordFixed, true⟩ := ⟨rfl, rfl⟩

/-- A null-free element list makes the `.some` scan of the
required-elements rule complete, returning whether some element has type
`name`. -/
theorem someElTypeName_no_null (els : List Json) (h : ∀ el ∈ els, el ≠ Json.null) :
    someElTypeName els = .ok (els.any elTypeIsName) := by
  induction els with
  | nil => rfl
  | cons el rest ih =>
    have hel := h el (List.mem_cons_self el rest)
    have hrest : ∀ x ∈ rest, x ≠ Json.null := fun x hx => h x (List.mem_cons_of_mem el hx)
    unfold someElTypeName
    cases el with
    | null => exact absurd rfl hel
    | obj fields =>
      dsimp only [getFieldJ]
      by_cases hn : isStrVal (getField fields "type") "name" = true
      · simp [hn, elTypeIsName]
      · simp [hn, elTypeIsName, ih hrest]
    | bool b => simpa [getFieldJ, elTypeIsName, isStrVal] using ih hrest
    | num n => simpa [getFieldJ, elTypeIsName, isStrVal] using ih hrest
    | str t => simpa [getFieldJ, elTypeIsName, isStrVal] using ih hrest
    | arr xs => simpa [getFieldJ, elTypeIsName, isStrVal] using ih hrest

/-- C5 counterexample: the claim says a record whose `required-elements` is
present but EMPTY gets no finding from this rule.  In the source,
`if (json['required-elements'])` is a truthiness test and an empty array is
truthy in JavaScript, so `[].some(...)` is `false` and the finding IS
emitted. -/
theorem C5_empty_required_elements_counterexample :
    checkRequiredElements [("required-elements", Json.arr [])] =
      .ok [requiredElementsEv] := rfl

/-- C5 (amended): when `required-elements` is absent the rule emits nothing;
when it is present as an array with no `null` element (the empty array
included), exactly one finding referencing the rule is emitted iff the
array has no element whose `type` is `name`.  (The original claim exempted
the empty array; the code does not — `[]` is truthy and `[].some` is
`false`.  Arrays are restricted to null-free ones because the source's
`.some` callback throws at `el.type` on a `null` element reached before any
element of type `name`, aborting the run instead of producing findings.) -/
theorem C5_required_elements_rule (json : JsonObj) :
    (getField json "required-elements" = none → checkRequiredElements json = .ok []) ∧
    (∀ els, getField json "required-elements" = some (Json.arr els) →
      (∀ el ∈ els, el ≠ Json.null) →
      checkRequiredElements json =
        .ok (if els.any elTypeIsName then [] else [requiredElementsEv])) := by
  constructor
  · intro h
    simp [checkRequiredElements, h]
  · intro els h hnull
    unfold checkRequiredElements
    rw [h]
    dsimp only
    rw [someElTypeName_no_null els hnull]
    simp [truthy]

theorem C5_required_elements_rule_witness :
    checkRequiredElements
        [("required-elements", Json.arr [Json.obj [("type", Json.str "name")]])] = .ok [] := by
  have h := (C5_required_elements_rule
      [("required-elements", Json.arr [Json.obj [("type", Json.str "name")]])]).2
      [Json.obj [("type", Json.str "name")]] rfl
      (by
        intro el hel
        rw [List.mem_singleton.mp hel]
        intro hn
        exact Json.noConfusion hn)
  simpa using h

/-- C6 counterexample: the claim says a line matching the native name of an
EXCLUDED country (code in US/NL/SG) is not accepted.  By the source's
operator precedence the exclusion applies only to the official name, so the
native name "Nederland" of the excluded code NL is accepted, while the
claim's reading rejects it. -/
theorem C6_native_name_counterexample :
    isLastLineCountry [nlEntry] "Nederland" [] = true ∧
    isLastLineCountrySpec [nlEntry] "Nederland" [] = false := ⟨rfl, rfl⟩

/-- C6 (amended): `isLastLineCountry` returns true iff the text equals the
official name of a country whose code is NOT in the exclusion set, or the
NATIVE name of ANY country (the exclusion does not apply to native names),
or one of the configured variations; equality is exact string match. -/
theorem C6_country_matcher (countriesTable : List CountryEntry) (line : String)
    (variations : List String) :
    isLastLineCountry countriesTable line variations = true ↔
      ((∃ v ∈ countriesTable,
          (v.code ∉ variation_countrycodes ∧ v.name = line) ∨ v.native = line) ∨
        line ∈ variations) := by
  simp [isLastLineCountry, List.any_eq_true]

/-! ## Helper lemmas -/

theorem except_isOk_exists {α : Type} {e : Except String α} (h : e.isOk = true) :
    ∃ x, e = .ok x := by
  cases e with
  | error err => simp [Except.isOk, Except.toBool] at h
  | ok x => exact ⟨x, rfl⟩

/-- Two strings differ when they differ on a prefix of the first operand of
an append. -/
theorem append_ne_of_take_ne (p s t : String) (n : Nat) (hn : n ≤ p.data.length)
    (hne : p.data.take n ≠ t.data.take n) : p ++ s ≠ t := by
  intro h
  apply hne
  have h2 := congrArg (fun x : String => x.data.take n) h
  simpa [show (p ++ s).data = p.data ++ s.data from rfl,
         List.take_append_of_le_length hn] using h2

/-- One template field under the entry-exists hypothesis: the rule emits
exactly the finding described by `expectedTemplateFinding`. -/
theorem checkTemplateProp_eq (t : Templates) (json : JsonObj) (p : String)
    (h : truthyOpt (getField json p) = true →
      (templatesLookup t (effectiveLang json)).isSome = true) :
    checkTemplateProp t json p = .ok (expectedTemplateFinding t json p).toList := by
  unfold checkTemplateProp expectedTemplateFinding
  by_cases hp : truthyOpt (getField json p) = true
  · have hs := h hp
    unfold effectiveLang at hs
    by_cases hl : truthyOpt (getField json "request-language") = true
    · rw [if_pos hl] at hs
      obtain ⟨names, hnames⟩ := Option.isSome_iff_exists.mp hs
      simp only [hp, hl, if_true, hnames]
      split <;> rfl
    · rw [if_neg hl] at hs
      obtain ⟨names, hnames⟩ := Option.isSome_iff_exists.mp hs
      simp only [hp, hl, if_true, if_false, Bool.false_eq_true, hnames]
      split <;> rfl
  · simp [hp]

theorem checkTemplatesGo_eq (t : Templates) (json : JsonObj) (l : List String)
    (h : ∀ p ∈ l, truthyOpt (getField json p) = true →
      (templatesLookup t (effectiveLang json)).isSome = true) :
    checkTemplatesGo t json l = .ok (l.filterMap (expectedTemplateFinding t json)) := by
  induction l with
  | nil => rfl
  | cons p ps ih =>
    have hp := checkTemplateProp_eq t json p (h p (by simp))
    have hps := ih (fun q hq => h q (by simp [hq]))
    unfold checkTemplatesGo
    rw [hp, hps]
    simp [List.filterMap_cons]
    cases expectedTemplateFinding t json p <;> simp

/-- C7 counterexample: the original claim's presence semantics predict a
finding for a PRESENT `custom-access-template` of `""` whose catalog entry
does not contain it; the source's truthiness test skips the falsy empty
string, so no finding is emitted. -/
theorem C7_falsy_field_counterexample :
    checkTemplates [("en", [])] [("custom-access-template", Json.str "")] = .ok [] ∧
    templateProps.filterMap
        (claimTemplateFinding [("en", [])] [("custom-access-template", Json.str "")]) =
      [⟨templateMsgEnglish "custom-access-template" (some (Json.str "")),
        some templateRef⟩] := ⟨rfl, rfl⟩

/-- C7 (amended): for each of the four `custom-*-template` fields present
with a TRUTHY value, assuming the Template Catalog has an entry for the
effective language (the TRUTHY `request-language` string-coerced, else
`"en"`), an error is emitted iff that entry does not contain the given
template name, it carries the reference link exactly when `request-language`
is not truthy, and the rule yields no other finding and no autofix.  (The
original claim's "present"/"set" tests are truthiness tests in the source:
falsy values — e.g. empty strings — are treated as absent.) -/
theorem C7_template_rule (t : Templates) (json : JsonObj)
    (h : ∀ p ∈ templateProps, truthyOpt (getField json p) = true →
      (templatesLookup t (effectiveLang json)).isSome = true) :
    checkTemplates t json = .ok (templateProps.filterMap (expectedTemplateFinding t json)) :=
  checkTemplatesGo_eq t json templateProps h

theorem C7_template_rule_witness :
    checkTemplates [("en", ["access"])] [("custom-access-template", Json.str "access")] =
      .ok (templateProps.filterMap (expectedTemplateFinding [("en", ["access"])]
        [("custom-access-template", Json.str "access")])) :=
  C7_template_rule [("en", ["access"])] [("custom-access-template", Json.str "access")]
    (by decide)

/-- C8: a file whose content fails to parse gets the parse-failure finding
(after the content-independent trailing-newline check) and nothing else —
no schema, slug or rule events and no write for it — and the remaining files
are processed exactly as without it; among its findings exactly one carries
the parse error. -/
theorem C8_parse_failure_isolated (schema : Json → Option String)
    (parse : String → Except String Json)
    (checks : Option (Json → Except String CheckResult))
    (f : FileInput) (rest : List FileInput) (err : String)
    (h : parse f.content = .error err) :
    validatorGo schema parse checks (f :: rest) =
      (((validatorGo schema parse checks rest).1).map
        (fun l => (f.name, fileBaseEvents f.content ++ [parseFailEvent err]) :: l),
       (validatorGo schema parse checks rest).2) ∧
    ((fileBaseEvents f.content ++ [parseFailEvent err]).filter
        (fun e => e.err.isSome)).length = 1 := by
  constructor
  · simp only [validatorGo, h]
  · unfold fileBaseEvents
    split <;> simp [parseFailEvent]

theorem C8_parse_failure_isolated_witness :
    validatorGo (fun _ => none) (fun _ => .error "Unexpected token") none
        [⟨"acme.json", "not json"⟩] =
      (((validatorGo (fun _ => none) (fun _ => .error "Unexpected token") none []).1).map
        (fun l => ("acme.json",
          fileBaseEvents "not json" ++ [parseFailEvent "Unexpected token"]) :: l),
       (validatorGo (fun _ => none) (fun _ => .error "Unexpected token") none []).2) ∧
    ((fileBaseEvents "not json" ++ [parseFailEvent "Unexpected token"]).filter
        (fun e => e.err.isSome)).length = 1 :=
  C8_parse_failure_isolated (fun _ => none) (fun _ => .error "Unexpected token") none
    ⟨"acme.json", "not json"⟩ [] "Unexpected token" rfl

/-- In any mode, the write decision returned by `additional_checks` equals
the autofix flag: the source's guard `json !== af_json` is reference
inequality on a fresh deep copy and never blocks. -/
theorem additional_checks_write (a : Bool) (t : Templates) (cT : List CountryEntry)
    (ciT : List CityEntry) (json : JsonObj) (r : CheckResult)
    (h : additional_checks a t cT ciT json = .ok r) : r.write = a := by
  unfold additional_checks at h
  rcases hc : checksCore a t cT ciT json with e | ⟨errors, autofixes, af⟩ <;> rw [hc] at h
  · cases h
  · cases h
    simp [jsObjectRefNeq]

theorem validatorGo_writes_none (schema : Json → Option String)
    (parse : String → Except String Json) (files : List FileInput) :
    (validatorGo schema parse none files).2 = [] := by
  induction files with
  | nil => rfl
  | cons f rest ih =>
    unfold validatorGo
    cases hp : parse f.content with
    | error err => simp [hp, ih]
    | ok json => cases hs : slugStage json f.name <;> simp [hp, hs, ih]

theorem validatorGo_writes_of_write_false (schema : Json → Option String)
    (parse : String → Except String Json) (chk : Json → Except String CheckResult)
    (hchk : ∀ j r, chk j = .ok r → r.write = false) (files : List FileInput) :
    (validatorGo schema parse (some chk) files).2 = [] := by
  induction files with
  | nil => rfl
  | cons f rest ih =>
    unfold validatorGo
    cases hp : parse f.content with
    | error err => simp [hp, ih]
    | ok json =>
      cases hs : slugStage json f.name with
      | error e => simp [hp, hs]
      | ok e2 =>
        cases hc : chk json with
        | error e => simp [hp, hs, hc]
        | ok r => simp [hp, hs, hc, ih, hchk json r hc]

/-- C9: with the auto-fix flag absent (report-only mode) the program writes
no record file at all — in both validated directories, for every schema,
parser behaviour and file list, the collected write set is empty. -/
theorem C9_report_mode_never_writes (t : Templates) (countriesTable : List CountryEntry)
    (citiesTable : List CityEntry) (cdb_schema adb_schema : Json → Option String)
    (parse : String → Except String Json) (companies authorities : List FileInput) :
    (runProgram false t countriesTable citiesTable cdb_schema adb_schema parse
      companies authorities).2 = [] := by
  have h1 := validatorGo_writes_of_write_false cdb_schema parse
      (fun j => additional_checks false t countriesTable citiesTable (jsFields j))
      (fun j r h => additional_checks_write false t countriesTable citiesTable (jsFields j) r h)
      companies
  have h2 := validatorGo_writes_none adb_schema parse authorities
  unfold runProgram
  cases hE : (validatorGo cdb_schema parse
      (some fun j => additional_checks false t countriesTable citiesTable (jsFields j))
      companies).1 with
  | error e => simp [hE, h1]
  | ok evs1 =>
    cases hF : (validatorGo adb_schema parse none authorities).1 with
    | error e => simp [hE, hF, h1, h2]
    | ok evs2 => simp [hE, hF, h1, h2]

theorem checkRequiredElements_isOk (json : JsonObj) (h : reFieldOk json = true) :
    (checkRequiredElements json).isOk = true := by
  unfold reFieldOk at h
  unfold checkRequiredElements
  cases hf : getField json "required-elements" with
  | none => simp [Except.isOk, Except.toBool]
  | some v =>
    rw [hf] at h
    dsimp only at h ⊢
    by_cases ht : truthy v = true
    · rw [ht] at h
      simp only [Bool.not_true, Bool.false_or] at h
      cases v with
      | arr els =>
        dsimp only at h
        have hnull : ∀ el ∈ els, el ≠ Json.null := by
          intro el hel hn
          have h2 := List.all_eq_true.mp h el hel
          rw [hn] at h2
          simp [Json.isNull] at h2
        simp only [ht, if_true]
        rw [someElTypeName_no_null els hnull]
        simp [Except.isOk, Except.toBool]
      | null => simp at h
      | bool b => simp at h
      | num n => simp at h
      | str t => simp at h
      | obj fields => simp at h
    · simp [ht, Except.isOk, Except.toBool]

theorem checkAddress_isOk (a : Bool) (cT : List CountryEntry) (ciT : List CityEntry)
    (json : JsonObj) (af0 : JsonObj) (h : addressRuleOk a cT ciT json = true) :
    (checkAddress a cT ciT json af0).isOk = true := by
  unfold addressRuleOk at h
  unfold checkAddress
  cases hf : getField json "address" with
  | none => rw [hf] at h; cases h
  | some v =>
    rw [hf] at h
    cases v with
    | str addr =>
      dsimp only at h ⊢
      by_cases hc : isLastLineCountry cT (jsTrim (lastStr (splitLines addr)))
          country_name_variations = true
      · simp [hc, Except.isOk, Except.toBool]
      · by_cases ha : a = true
        · subst ha
          simp only [Bool.not_true, Bool.false_or, hc, Bool.false_or] at h
          cases he : execCity (jsTrim (lastStr (splitLines addr))) with
          | none => rw [he] at h; simp at h
          | some city =>
            rw [he] at h
            dsimp only at h
            cases hg : (ciT.filter (fun x => x.name = city)).head? with
            | none => simp [hc, he, hg, Except.isOk, Except.toBool]
            | some guess =>
              rw [hg] at h
              dsimp only at h
              by_cases hv : guess.country ∈ variation_countrycodes
              · simp [hc, he, hg, hv, Except.isOk, Except.toBool]
              · rw [Bool.or_eq_true] at h
                rcases h with h | h
                · exact absurd (by simpa using h) hv
                · obtain ⟨entry, hent⟩ := Option.isSome_iff_exists.mp h
                  simp [hc, he, hg, hv, hent, Except.isOk, Except.toBool]
        · have ha' : a = false := by revert ha; cases a <;> simp
          subst ha'
          simp [hc, Except.isOk, Except.toBool]
    | null => cases h
    | bool b => cases h
    | num n => cases h
    | arr els => cases h
    | obj fields => cases h

/-- C1 counterexample: the claim says rule evaluation never throws, naming
the missing-`address`, unknown-`request-language` and no-space-last-line
cases.  All of these throw (abort the run) in the source, as do a truthy
non-array `required-elements` and a `null` element inside it:
1. no `address` field: `json['address'].split` on `undefined`;
2. a `custom-*-template` with a `request-language` that has no catalog
   entry: `templates[lang].includes` on `undefined`;
3. auto-fix with a last address line that is no country and has no space:
   the regex `exec` returns `null` and `[1]` throws;
4. a truthy non-array `required-elements`: `.some` is not a function;
5. a `null` element in `required-elements`: the `.some` callback reads
   `el.type` of `null`. -/
theorem C1_throw_counterexample :
    (additional_checks false [] [] [] [("slug", Json.str "x")]).isOk = false ∧
    (additional_checks false [("en", ["access"])] [] []
      [("custom-access-template", Json.str "x"), ("request-language", Json.str "de"),
       ("address", Json.str "a\nGermany")]).isOk = false ∧
    (additional_checks true [] [] [] [("address", Json.str "A\nBerlin")]).isOk = false ∧
    (additional_checks false [] [] [] [("required-elements", Json.str "x")]).isOk = false ∧
    (additional_checks false [] [] []
      [("required-elements", Json.arr [Json.null])]).isOk = false :=
  ⟨rfl, rfl, rfl, rfl, rfl⟩

/-- C1 (amended): rule evaluation completes without throwing — every
detected problem becoming a Finding — PROVIDED that (i) `required-elements`,
when truthy, is an array containing no `null` element, (ii) every truthy
`custom-*-template` field finds a catalog entry for the effective language,
(iii) `address` is a string, and (iv) in auto-fix mode, when the last
address line is not recognised as a country, it contains a space and any
gazetteer match carries a resolvable country code.  Outside these
conditions evaluation throws and the run aborts (see the counterexample,
which exhibits a throw against each condition). -/
theorem C1_no_throw (a : Bool) (t : Templates) (cT : List CountryEntry)
    (ciT : List CityEntry) (json : JsonObj)
    (h : checksNoThrowOk a t cT ciT json = true) :
    (additional_checks a t cT ciT json).isOk = true := by
  obtain ⟨⟨h1, h2⟩, h3⟩ :
      (reFieldOk json = true ∧ templatesFieldOk t json = true) ∧
        addressRuleOk a cT ciT json = true := by
    simpa [checksNoThrowOk, Bool.and_eq_true] using h
  obtain ⟨e1, he1⟩ := except_isOk_exists (checkRequiredElements_isOk json h1)
  have htm : checkTemplates t json =
      .ok (templateProps.filterMap (expectedTemplateFinding t json)) := by
    apply checkTemplatesGo_eq
    intro p hp hv
    unfold templatesFieldOk at h2
    have hall := List.all_eq_true.mp h2 p hp
    rw [hv] at hall
    simpa using hall
  obtain ⟨r5, hr5⟩ := except_isOk_exists
    (checkAddress_isOk a cT ciT json (checkWhitespace a json json).2.2 h3)
  unfold additional_checks checksCore
  rw [he1]
  dsimp only
  rw [htm]
  dsimp only
  rw [hr5]
  simp [Except.isOk, Except.toBool]

theorem C1_no_throw_witness :
    (additional_checks true [] deTable [] cleanRecord).isOk = true :=
  C1_no_throw true [] deTable [] cleanRecord (by decide)

/-! ## Lemmas for the duplicate-name autofix claim -/

theorem mem_ite_or {α : Type} {c : Prop} [Decidable c] {l m : List α} {x : α}
    (hx : x ∈ (if c then l else m)) : x ∈ l ∨ x ∈ m := by
  split at hx
  · exact Or.inl hx
  · exact Or.inr hx

theorem countryMsg_ne_dup (last : String) : countryMsg last ≠ duplicateNameMsg :=
  append_ne_of_take_ne _ _ _ 1 (by decide) (by decide)

/-- Under the C10 hypotheses the address stage records the duplicate-name
autofix and none of its errors is the duplicate-name error. -/
theorem checkAddress_dup (cT : List CountryEntry) (ciT : List CityEntry)
    (json af0 : JsonObj) (res : List Ev × List Ev × JsonObj) (addr nm : String)
    (h : checkAddress true cT ciT json af0 = .ok res)
    (haddr : getField json "address" = some (Json.str addr))
    (hname : getField json "name" = some (Json.str nm))
    (hfirst : jsTrim (headStr (splitLines addr)) = nm)
    (hnodup : ∀ l ∈ splitLines addr, l ≠ nm) :
    duplicateNameFixEv ∈ res.2.1 ∧ ∀ ev ∈ res.1, ev.msg ≠ duplicateNameMsg := by
  unfold checkAddress at h
  rw [haddr] at h
  dsimp only at h
  rw [hname] at h
  have hfix : (true && isStrVal (some (Json.str nm)) (jsTrim (headStr (splitLines addr)))) = true := by
    rw [hfirst]; simp [isStrVal]
  have hdup : ((splitLines addr).any fun line => isStrVal (some (Json.str nm)) line) = false := by
    rw [List.any_eq_false]
    intro l hl
    simp only [isStrVal, decide_eq_true_eq]
    exact fun he => hnodup l hl he.symm
  rw [hfix, hdup] at h
  simp only [Bool.false_eq_true, if_false, eq_self_iff_true, if_true] at h
  split at h
  · cases h
    refine ⟨by simp, ?_⟩
    intro ev hev
    rcases List.mem_append.mp hev with hev | hev
    · rcases List.mem_append.mp hev with hev | hev
      · rcases mem_ite_or hev with hev | hev
        · rw [List.mem_singleton.mp hev]; decide
        · cases hev
      · rcases mem_ite_or hev with hev | hev
        · rw [List.mem_singleton.mp hev]; decide
        · cases hev
    · cases hev
  · split at h
    · exact Except.noConfusion h
    · split at h
      · cases h
        refine ⟨by simp, ?_⟩
        intro ev hev
        rcases List.mem_append.mp hev with hev | hev
        · rcases List.mem_append.mp hev with hev | hev
          · rcases List.mem_append.mp hev with hev | hev
            · rcases mem_ite_or hev with hev | hev
              · rw [List.mem_singleton.mp hev]; decide
              · cases hev
            · rcases mem_ite_or hev with hev | hev
              · rw [List.mem_singleton.mp hev]; decide
              · cases hev
          · cases hev
        · rw [List.mem_singleton.mp hev]
          exact countryMsg_ne_dup _
      · split at h
        · exact Except.noConfusion h
        · cases h
          refine ⟨by simp, ?_⟩
          intro ev hev
          rcases List.mem_append.mp hev with hev | hev
          · rcases List.mem_append.mp hev with hev | hev
            · rcases List.mem_append.mp hev with hev | hev
              · rcases mem_ite_or hev with hev | hev
                · rw [List.mem_singleton.mp hev]; decide
                · cases hev
              · rcases mem_ite_or hev with hev | hev
                · rw [List.mem_singleton.mp hev]; decide
                · cases hev
            · cases hev
          · rw [List.mem_singleton.mp hev]
            exact countryMsg_ne_dup _

theorem checkRequiredElements_cases (json : JsonObj) (l : List Ev)
    (h : checkRequiredElements json = .ok l) : l = [] ∨ l = [requiredElementsEv] := by
  unfold checkRequiredElements at h
  cases hf : getField json "required-elements" <;> rw [hf] at h <;> dsimp only at h
  · cases h; exact Or.inl rfl
  · split at h
    · split at h
      · split at h
        · exact Except.noConfusion h
        · split at h
          · cases h; exact Or.inl rfl
          · cases h; exact Or.inr rfl
      all_goals exact Except.noConfusion h
    · cases h; exact Or.inl rfl

theorem checkTemplateProp_msgs (t : Templates) (json : JsonObj) (p : String) (l : List Ev)
    (h : checkTemplateProp t json p = .ok l) :
    ∀ ev ∈ l, ∃ s, ev.msg = "Record specifies \x27" ++ s := by
  intro ev hev
  unfold checkTemplateProp at h
  dsimp only at h
  split at h
  · split at h
    · split at h
      · exact Except.noConfusion h
      · split at h <;> cases h
        · cases hev
        · rw [List.mem_singleton.mp hev]
          exact ⟨_, rfl⟩
    · split at h
      · exact Except.noConfusion h
      · split at h <;> cases h
        · cases hev
        · rw [List.mem_singleton.mp hev]
          exact ⟨_, rfl⟩
  · cases h; cases hev

theorem checkTemplatesGo_msgs (t : Templates) (json : JsonObj) (ps : List String)
    (l : List Ev) (h : checkTemplatesGo t json ps = .ok l) :
    ∀ ev ∈ l, ∃ s, ev.msg = "Record specifies \x27" ++ s := by
  induction ps generalizing l with
  | nil => cases h; intro ev hev; cases hev
  | cons p rest ih =>
    unfold checkTemplatesGo at h
    cases h1 : checkTemplateProp t json p <;> rw [h1] at h <;> dsimp only at h
    · exact Except.noConfusion h
    · cases h2 : checkTemplatesGo t json rest <;> rw [h2] at h <;> dsimp only at h
      · exact Except.noConfusion h
      · cases h
        intro ev hev
        rcases List.mem_append.mp hev with hm | hm
        · exact checkTemplateProp_msgs t json p _ h1 ev hm
        · exact ih _ h2 ev hm

theorem checkQuality_cases (json : JsonObj) :
    checkQuality json = [] ∨ checkQuality json = [qualityTestedEv] := by
  unfold checkQuality
  split
  · split
    · exact Or.inr rfl
    · exact Or.inl rfl
  · exact Or.inl rfl

theorem checkWhitespace_msgs (a : Bool) (fields : List (String × Json)) (af : JsonObj) :
    ∀ ev ∈ (checkWhitespace a fields af).1, ∃ s, ev.msg = "Seems like `" ++ s := by
  induction fields generalizing af with
  | nil => intro ev hev; cases hev
  | cons kv rest ih =>
    obtain ⟨key, v⟩ := kv
    cases v with
    | str s =>
      rw [checkWhitespace]
      split
      · intro ev hev
        cases hev with
        | head => exact ⟨_, rfl⟩
        | tail _ hm => exact ih _ ev hm
      · exact ih af
    | null => exact ih af
    | bool b => exact ih af
    | num n => exact ih af
    | arr elems => exact ih af
    | obj fs => exact ih af

/-- C10: in auto-fix mode, whenever the first address line TRIMMED equals
`name` while no address line equals `name` exactly (so the duplicate-name
error is not emitted), the duplicate-name autofix is still applied: the run
records the "Removed duplicate name in first line of address" autofix event,
records no duplicate-name error finding, and rewrites the file. -/
theorem C10_dup_name_fix_without_error (t : Templates) (cT : List CountryEntry)
    (ciT : List CityEntry) (json : JsonObj) (r : CheckResult) (addr nm : String)
    (hrun : additional_checks true t cT ciT json = .ok r)
    (haddr : getField json "address" = some (Json.str addr))
    (hname : getField json "name" = some (Json.str nm))
    (hfirst : jsTrim (headStr (splitLines addr)) = nm)
    (hnodup : ∀ l ∈ splitLines addr, l ≠ nm) :
    (⟨"autofix", duplicateNameFixMsg, none, none⟩ : TestEvent) ∈ r.events ∧
    (⟨"error", duplicateNameMsg, none, none⟩ : TestEvent) ∉ r.events ∧
    r.write = true := by
  unfold additional_checks at hrun
  cases hc : checksCore true t cT ciT json with
  | error e => rw [hc] at hrun; exact Except.noConfusion hrun
  | ok v =>
    obtain ⟨errors, autofixes, af⟩ := v
    rw [hc] at hrun
    dsimp only at hrun
    cases hrun
    unfold checksCore at hc
    cases h1 : checkRequiredElements json <;> rw [h1] at hc <;> dsimp only at hc
    · exact Except.noConfusion hc
    case ok e1 =>
    cases h2 : checkTemplates t json <;> rw [h2] at hc <;> dsimp only at hc
    · exact Except.noConfusion hc
    case ok e2 =>
    cases h5 : checkAddress true cT ciT json (checkWhitespace true json json).2.2 <;>
      rw [h5] at hc <;> dsimp only at hc
    · exact Except.noConfusion hc
    case ok r5 =>
    cases hc
    have hA := checkAddress_dup cT ciT json _ r5 addr nm h5 haddr hname hfirst hnodup
    refine ⟨?_, ?_, rfl⟩
    · exact List.mem_append_left _
        (List.mem_map.mpr ⟨duplicateNameFixEv, List.mem_append_right _ hA.1, rfl⟩)
    · intro hmem
      rcases List.mem_append.mp hmem with hm | hm
      · obtain ⟨a, _, ha⟩ := List.mem_map.mp hm
        have hT := congrArg TestEvent.type ha
        simp at hT
      · obtain ⟨e, he, hee⟩ := List.mem_map.mp hm
        have hmsg : e.msg = duplicateNameMsg := congrArg TestEvent.msg hee
        rcases List.mem_append.mp he with he' | he'
        · rcases List.mem_append.mp he' with he'' | he''
          · rcases List.mem_append.mp he'' with h3 | h3
            · rcases List.mem_append.mp h3 with h4 | h4
              · rcases checkRequiredElements_cases json e1 h1 with rfl | rfl
                · cases h4
                · rw [List.mem_singleton.mp h4] at hmsg
                  exact absurd hmsg (by decide)
              · obtain ⟨s, hs⟩ := checkTemplatesGo_msgs t json templateProps e2
                  (by simpa [checkTemplates] using h2) e h4
                rw [hs] at hmsg
                exact append_ne_of_take_ne _ _ _ 8 (by decide) (by decide) hmsg
            · rcases checkQuality_cases json with hq | hq <;> rw [hq] at h3
              · cases h3
              · rw [List.mem_singleton.mp h3] at hmsg
                exact absurd hmsg (by decide)
          · obtain ⟨s, hs⟩ := checkWhitespace_msgs true json json e he''
            rw [hs] at hmsg
            exact append_ne_of_take_ne _ _ _ 1 (by decide) (by decide) hmsg
        · exact hA.2 e he' hmsg

theorem C10_dup_name_fix_without_error_witness :
    (⟨"autofix", duplicateNameFixMsg, none, none⟩ : TestEvent) ∈ dupSpaceResult.events ∧
    (⟨"error", duplicateNameMsg, none, none⟩ : TestEvent) ∉ dupSpaceResult.events ∧
    dupSpaceResult.write = true :=
  C10_dup_name_fix_without_error [] deTable [] dupSpaceRecord dupSpaceResult
    "Acme \nMusterstr. 1\nGermany" "Acme" rfl rfl rfl rfl (by decide)
